import Mathlib

/-!
# schemahero: column diff, MySQL introspection and driver dispatch

A shallow embedding of

* `pkg/database/types/column.go`  (`NotNullConstraintEquals`, `Column`),
* `pkg/database/mysql/alter.go`   (`AlterColumnStatement`, `columnsMatch`),
* `pkg/database/mysql/tables.go`  (`ListTableForeignKeys`, `GetTableSchema`),
* `pkg/database/database.go`      (`PlanSync`, `getURI`, `ApplySync`).

Conventions of the embedding.

* A Go `error` is its message, a `String`; a Go `(T, error)` result is `Except Error T`.
* A Go `*bool` that is only ever tested for nil and dereferenced is an `Option Bool`.
* A Go `*string` whose address is observed (it is compared with `!=` in `columnsMatch`)
  is an `Option (Ptr String)`: an address together with the string stored there.
  Comparing two such pointers compares addresses, never the stored text.
-/

namespace SchemaHero

/-- A Go `error`, represented by its message. -/
abbrev Error := String

deriving instance DecidableEq for Except

/-- A non-nil Go pointer: the address it holds and the value stored at that address. -/
structure Ptr (α : Type) where
  addr : Nat
  val : α
  deriving DecidableEq, Repr

/-- Go `p == q` on two possibly-nil pointers: both nil, or both non-nil with the same address. -/
def ptrEq {α : Type} (p q : Option (Ptr α)) : Bool :=
  match p, q with
  | none, none => true
  | some x, some y => x.addr == y.addr
  | _, _ => false

/-! ## pkg/database/types/column.go -/

namespace types

/-- Go `type ColumnConstraints struct { NotNull *bool }`. -/
structure ColumnConstraints where
  NotNull : Option Bool
  deriving DecidableEq, Repr

/-- Go `NotNullConstraintEquals(a, b *bool) bool`. -/
def NotNullConstraintEquals (a b : Option Bool) : Bool :=
  if a = none || a = some false then
    b = none || b = some false
  else
    b ≠ none && b = some true

/-- Go `type Column struct`. -/
structure Column where
  Name : String
  DataType : String
  ColumnDefault : Option (Ptr String)
  Constraints : Option ColumnConstraints
  IsArray : Bool
  deriving DecidableEq, Repr

/-- The NOT-NULL flag a column carries: absent when it has no constraints object or when
the object leaves `NotNull` nil. -/
def Column.notNull (column : Column) : Option Bool :=
  match column.Constraints with
  | none => none
  | some constraints => constraints.NotNull

/-- Go `types.ForeignKey`, with the five fields `ListTableForeignKeys` fills in. -/
structure ForeignKey where
  ChildColumns : List String
  ParentTable : String
  ParentColumns : List String
  Name : String
  OnDelete : String
  deriving DecidableEq, Repr

end types

/-! ## pkg/apis/schemas: the declared shape of a desired column

The type declarations live outside the files at hand; the fields are the ones
`ColumnToSchemaColumn` in `column.go` assigns. -/

/-- Go `SQLTableColumnConstraints { NotNull *bool }`. -/
structure SQLTableColumnConstraints where
  NotNull : Option Bool
  deriving DecidableEq, Repr

/-- Go `SQLTableColumn { Name, Type string; Constraints *SQLTableColumnConstraints; Default *string }`. -/
structure SQLTableColumn where
  Name : String
  Type_ : String
  Constraints : Option SQLTableColumnConstraints
  Default : Option (Ptr String)
  deriving DecidableEq, Repr

/-! ## pkg/database/mysql/alter.go -/

namespace mysql

open types

/-- Go `AlterModifyColumnStatement { TableName string; Column types.Column }`. -/
structure AlterModifyColumnStatement where
  TableName : String
  Column : Column
  deriving DecidableEq, Repr

/-- Go `AlterDropColumnStatement { TableName string; Column types.Column }`. -/
structure AlterDropColumnStatement where
  TableName : String
  Column : Column
  deriving DecidableEq, Repr

/-- Go `columnsMatch(col1, col2 *types.Column) bool`.  The defaults are `*string`
values compared with `!=`, that is, by address. -/
def columnsMatch (col1 col2 : Column) : Bool :=
  if col1.DataType ≠ col2.DataType then
    false
  else if !(ptrEq col1.ColumnDefault col2.ColumnDefault) then
    false
  else
    let col1Constraints := match col1.Constraints with
      | none => ({ NotNull := none } : ColumnConstraints)
      | some c => c
    let col2Constraints := match col2.Constraints with
      | none => ({ NotNull := none } : ColumnConstraints)
      | some c => c
    NotNullConstraintEquals col1Constraints.NotNull col2Constraints.NotNull

/-- The loop `for _, primaryKey := range primaryKeys { if column.Name == primaryKey
{ isPrimaryKey = true } }` of `AlterColumnStatement`, started from `isPrimaryKey`. -/
def isPrimaryKeyLoop (name : String) (primaryKeys : List String) (isPrimaryKey : Bool) : Bool :=
  primaryKeys.foldl (fun acc primaryKey => if name == primaryKey then true else acc) isPrimaryKey

/-- The assignment `column.Constraints.NotNull = nil`, guarded by
`isPrimaryKey && column.Constraints != nil`. -/
def clearNotNullIfPrimaryKey (isPrimaryKey : Bool) (column : Column) : Column :=
  match isPrimaryKey, column.Constraints with
  | true, some _ => { column with Constraints := some { NotNull := none } }
  | _, _ => column

/-- Go `AlterColumnStatement(tableName, primaryKeys, desiredColumns, existingColumn)`.

The helper `schemaColumnToColumn` and the two `String()` renderers are defined in files
not at hand and are taken as the parameters `schemaColumnToColumn`, `modifyString` and
`dropString`. -/
def AlterColumnStatement
    (schemaColumnToColumn : SQLTableColumn → Except Error Column)
    (modifyString : AlterModifyColumnStatement → String)
    (dropString : AlterDropColumnStatement → String)
    (tableName : String) (primaryKeys : List String) :
    List SQLTableColumn → Column → Except Error String
  | [], existingColumn =>
      .ok (dropString
        { TableName := tableName
          Column := { Name := existingColumn.Name, DataType := "", ColumnDefault := none,
                      Constraints := none, IsArray := false } })
  | desiredColumn :: rest, existingColumn =>
      if desiredColumn.Name = existingColumn.Name then
        match schemaColumnToColumn desiredColumn with
        | .error err => .error err
        | .ok column =>
            if columnsMatch existingColumn column then
              .ok ""
            else
              let isPrimaryKey := isPrimaryKeyLoop column.Name primaryKeys false
              let column := clearNotNullIfPrimaryKey isPrimaryKey column
              .ok (modifyString { TableName := tableName, Column := column })
      else
        AlterColumnStatement schemaColumnToColumn modifyString dropString tableName primaryKeys
          rest existingColumn

/-- What `AlterColumnStatement` returns before it is rendered: the empty statement, a
modify statement or a drop statement. -/
inductive AlterStatement where
  | empty
  | modify (statement : AlterModifyColumnStatement)
  | drop (statement : AlterDropColumnStatement)
  deriving DecidableEq, Repr

/-- The string `AlterColumnStatement` returns for a statement: `""`, or the `String()` of the
statement value. -/
def AlterStatement.render (modifyString : AlterModifyColumnStatement → String)
    (dropString : AlterDropColumnStatement → String) : AlterStatement → String
  | .empty => ""
  | .modify statement => modifyString statement
  | .drop statement => dropString statement

/-- The control flow of `AlterColumnStatement` with the statement value kept in place of its
rendering; `AlterColumnStatement_eq_render` relates the two. -/
def alterColumnChoice
    (schemaColumnToColumn : SQLTableColumn → Except Error Column)
    (tableName : String) (primaryKeys : List String) :
    List SQLTableColumn → Column → Except Error AlterStatement
  | [], existingColumn =>
      .ok (.drop
        { TableName := tableName
          Column := { Name := existingColumn.Name, DataType := "", ColumnDefault := none,
                      Constraints := none, IsArray := false } })
  | desiredColumn :: rest, existingColumn =>
      if desiredColumn.Name = existingColumn.Name then
        match schemaColumnToColumn desiredColumn with
        | .error err => .error err
        | .ok column =>
            if columnsMatch existingColumn column then
              .ok .empty
            else
              let isPrimaryKey := isPrimaryKeyLoop column.Name primaryKeys false
              let column := clearNotNullIfPrimaryKey isPrimaryKey column
              .ok (.modify { TableName := tableName, Column := column })
      else
        alterColumnChoice schemaColumnToColumn tableName primaryKeys rest existingColumn

/-- A conversion that carries the four fields of a desired column over as they are; it
stands for `schemaColumnToColumn` where a concrete conversion is evaluated. -/
def carryOver (schemaColumn : SQLTableColumn) : Except Error Column :=
  .ok { Name := schemaColumn.Name
        DataType := schemaColumn.Type_
        ColumnDefault := schemaColumn.Default
        Constraints := schemaColumn.Constraints.map (fun c => { NotNull := c.NotNull })
        IsArray := false }

/-! ## pkg/database/mysql/tables.go -/

/-- One row of the foreign-key catalog query, in the order `rows.Scan` reads it:
`COLUMN_NAME, CONSTRAINT_NAME, REFERENCED_TABLE_NAME, REFERENCED_COLUMN_NAME, DELETE_RULE`. -/
structure ForeignKeyRow where
  childColumn : String
  name : String
  parentTable : String
  parentColumn : String
  deleteRule : String
  deriving DecidableEq, Repr

/-- The inner loop `for _, foundFk := range foreignKeys` of `ListTableForeignKeys`: the first
entry named `name` gets its two column lists assigned from `append(foreignKey.ChildColumns,
childColumn)` and `append(foreignKey.ParentColumns, parentColumn)`, where `foreignKey` is the
entry freshly built for the current row, and the loop is left (`goto Appended`).
`none` when no entry bears the name. -/
def appendToFound (foreignKey : ForeignKey) (childColumn parentColumn name : String) :
    List ForeignKey → Option (List ForeignKey)
  | [] => none
  | foundFk :: rest =>
      if foundFk.Name = name then
        some ({ foundFk with
                  ChildColumns := foreignKey.ChildColumns ++ [childColumn]
                  ParentColumns := foreignKey.ParentColumns ++ [parentColumn] } :: rest)
      else
        (appendToFound foreignKey childColumn parentColumn name rest).map (foundFk :: ·)

/-- The body of `for rows.Next()` in `ListTableForeignKeys`, for a row that scanned without
error. -/
def foreignKeyStep (foreignKeys : List ForeignKey) (row : ForeignKeyRow) : List ForeignKey :=
  let foreignKey : ForeignKey :=
    { Name := row.name
      ParentTable := row.parentTable
      OnDelete := row.deleteRule
      ChildColumns := [row.childColumn]
      ParentColumns := [row.parentColumn] }
  match appendToFound foreignKey row.childColumn row.parentColumn row.name foreignKeys with
  | some updated => updated
  | none => foreignKeys ++ [foreignKey]

/-- The loop `for rows.Next()` of `ListTableForeignKeys`; a row is `.error err` when
`rows.Scan` fails on it. -/
def foreignKeysLoop : List (Except Error ForeignKeyRow) → List ForeignKey →
    Except Error (List ForeignKey)
  | [], foreignKeys => .ok foreignKeys
  | .error err :: _, _ => .error err
  | .ok row :: rest, foreignKeys => foreignKeysLoop rest (foreignKeyStep foreignKeys row)

/-- Go `(m *MysqlConnection) ListTableForeignKeys`.  The argument is what `m.db.Query` gives:
an error, or the rows of the result set in the order the catalog delivers them. -/
def ListTableForeignKeys (query : Except Error (List (Except Error ForeignKeyRow))) :
    Except Error (List ForeignKey) :=
  match query with
  | .error err => .error err
  | .ok rows => foreignKeysLoop rows []

/-- One row of the column catalog query, as `rows.Scan` reads it: `COLUMN_NAME`,
`COLUMN_DEFAULT` (a `sql.NullString`), `IS_NULLABLE`, `DATA_TYPE`, `CHARACTER_MAXIMUM_LENGTH`
(a `sql.NullInt64`). -/
structure ColumnRow where
  name : String
  columnDefault : Option String
  isNullable : String
  dataType : String
  maxLength : Option Int
  deriving DecidableEq, Repr

/-- Modelled from the spec: the package variable `trueValue`, declared outside the files at
hand, whose address `GetTableSchema` stores in `NotNull` for a column that is not nullable;
it holds `true`. -/
def trueValue : Bool := true

/-- Modelled from the spec: the package variable `falseValue`, declared outside the files at
hand, whose address `GetTableSchema` stores in `NotNull` for a nullable column; it holds
`false`. -/
def falseValue : Bool := false

/-- The body of `for rows.Next()` in `GetTableSchema` for a row that scanned without error.
`addr` is the address of this iteration's variable `columnDefault`, whose field `String` the
column's default points to when the default is valid. -/
def columnOfRow (addr : Nat) (row : ColumnRow) : Column :=
  let constraints : ColumnConstraints :=
    if row.isNullable = "NO" then { NotNull := some trueValue } else { NotNull := some falseValue }
  let columnDefault : Option (Ptr String) :=
    match row.columnDefault with
    | some s => some { addr := addr, val := s }
    | none => none
  let dataType :=
    match row.maxLength with
    | some n => row.dataType ++ " (" ++ toString n ++ ")"
    | none => row.dataType
  { Name := row.name
    DataType := dataType
    ColumnDefault := columnDefault
    Constraints := some constraints
    IsArray := false }

/-- The loop `for rows.Next()` of `GetTableSchema`.  Every iteration declares a new
`columnDefault`, so the addresses handed out grow from `nextAddr` by one per row. -/
def tableSchemaLoop : List (Except Error ColumnRow) → Nat → List Column →
    Except Error (List Column)
  | [], _, columns => .ok columns
  | .error err :: _, _, _ => .error err
  | .ok row :: rest, nextAddr, columns =>
      tableSchemaLoop rest (nextAddr + 1) (columns ++ [columnOfRow nextAddr row])

/-- Go `(m *MysqlConnection) GetTableSchema`.  `query` is what `m.db.Query` gives and
`nextAddr` the first free address of the heap. -/
def GetTableSchema (query : Except Error (List (Except Error ColumnRow))) (nextAddr : Nat) :
    Except Error (List Column) :=
  match query with
  | .error err => .error err
  | .ok rows => tableSchemaLoop rows nextAddr []

/-- The distinct names of a list in the order in which each is first seen: the head, then the
first-seen names of the tail without the head.  Reference definition for the order of the
groups `ListTableForeignKeys` returns. -/
def firstSeenNames : List String → List String
  | [] => []
  | name :: rest => name :: (firstSeenNames rest).filter (fun other => other ≠ name)

end mysql

/-! ## pkg/database/database.go -/

namespace database

/-- Go `TableSchema { Postgres, Mysql, CockroachDB *SQLTableSchema }`; the payload type is
left open. -/
structure TableSchema (σ : Type) where
  Postgres : Option σ
  Mysql : Option σ
  CockroachDB : Option σ

/-- Go `TableSpec { Database, Name string; Requires []string; Schema *TableSchema }`. -/
structure TableSpec (σ : Type) where
  Database : String
  Name : String
  Requires : List String
  Schema : Option (TableSchema σ)

/-- Go `Table`, of which only the field `Spec` is read. -/
structure Table (σ : Type) where
  Spec : TableSpec σ

/-- What `Database` reaches outside the package: the settings behind `d.Viper.GetString`,
`ioutil.ReadFile`, the two `yaml.Unmarshal` targets, and the planners and statement
executors of the two dialect packages, which act on the state `ω` of the databases. -/
structure Env (σ ω : Type) where
  GetString : String → String
  ReadFile : String → Except Error String
  UnmarshalTable : String → Except Error (Table σ)
  UnmarshalTableSpec : String → Except Error (TableSpec σ)
  PlanPostgresTable : String → String → Option σ → ω → Except Error (List String) × ω
  PlanMysqlTable : String → String → Option σ → ω → Except Error (List String) × ω
  DeployPostgresStatements : String → List String → ω → Except Error Unit × ω
  DeployMysqlStatements : String → List String → ω → Except Error Unit × ω

/-- Go `errors.Wrap(err, message)`, as the message of the wrapped error. -/
def wrap (err : Error) (message : String) : Error := message ++ ": " ++ err

/-- Go `getURI(d)`. -/
def getURI {σ ω : Type} (d : Env σ ω) : Except Error String :=
  let uriRef := d.GetString "vault-uri-ref"
  if uriRef ≠ "" then
    match d.ReadFile uriRef with
    | .error err => .error err
    | .ok b => .ok b
  else
    .ok (d.GetString "uri")

/-- Lines 137 to 152 of `PlanSync`: the enveloped form is tried first and kept when it
parses and carries a schema, otherwise the bare form is parsed. -/
def readSpec {σ ω : Type} (d : Env σ ω) (specContents : String) : Except Error (TableSpec σ) :=
  let spec : Option (TableSpec σ) :=
    match d.UnmarshalTable specContents with
    | .ok parsedK8sObject =>
        if parsedK8sObject.Spec.Schema.isSome then some parsedK8sObject.Spec else none
    | .error _ => none
  match spec with
  | some spec => .ok spec
  | none =>
      match d.UnmarshalTableSpec specContents with
      | .error err => .error (wrap err "failed to unmarshal spec")
      | .ok plainSpec => .ok plainSpec

/-- Go `(d *Database) PlanSync(filename)`. -/
def PlanSync {σ ω : Type} (d : Env σ ω) (filename : String) (w : ω) :
    Except Error (List String) × ω :=
  match d.ReadFile filename with
  | .error err => (.error (wrap err "failed to read file"), w)
  | .ok specContents =>
    match readSpec d specContents with
    | .error err => (.error err, w)
    | .ok spec =>
      match spec.Schema with
      | none => (.ok [], w)
      | some schema =>
        match getURI d with
        | .error err => (.error err, w)
        | .ok uri =>
          if d.GetString "driver" = "postgres" then
            d.PlanPostgresTable uri spec.Name schema.Postgres w
          else if d.GetString "driver" = "mysql" then
            d.PlanMysqlTable (d.GetString "uri") spec.Name schema.Mysql w
          else if d.GetString "driver" = "cockroachdb" then
            d.PlanPostgresTable (d.GetString "uri") spec.Name schema.CockroachDB w
          else
            (.error "unknown database driver", w)

/-- Go `(d *Database) ApplySync(statements)`.  The line it prints to standard output is not
part of the model. -/
def ApplySync {σ ω : Type} (d : Env σ ω) (statements : List String) (w : ω) :
    Except Error Unit × ω :=
  match getURI d with
  | .error err => (.error err, w)
  | .ok uri =>
    if d.GetString "driver" = "postgres" then
      d.DeployPostgresStatements uri statements w
    else if d.GetString "driver" = "mysql" then
      d.DeployMysqlStatements uri statements w
    else if d.GetString "driver" = "cockroachdb" then
      d.DeployPostgresStatements uri statements w
    else
      (.error "unknown database driver", w)

/-- A sample environment: the driver token is `driver`, the connection string is
`mysql://db`, no secret file is referenced, every file reads as `name: users`, only the bare
form parses and it carries a schema payload; the state of the databases is the list of the
connection strings used so far. -/
def sampleEnv (driver : String) : Env String (List String) where
  GetString := fun key =>
    if key = "driver" then driver else if key = "uri" then "mysql://db" else ""
  ReadFile := fun _ => .ok "name: users"
  UnmarshalTable := fun _ => .error "cannot unmarshal"
  UnmarshalTableSpec := fun _ =>
    .ok { Database := "", Name := "users", Requires := [],
          Schema := some { Postgres := some "pg", Mysql := some "my", CockroachDB := none } }
  PlanPostgresTable := fun uri _ _ w => (.ok ["postgres plan"], w ++ [uri])
  PlanMysqlTable := fun uri _ _ w => (.ok ["mysql plan"], w ++ [uri])
  DeployPostgresStatements := fun uri _ w => (.ok (), w ++ [uri])
  DeployMysqlStatements := fun uri _ w => (.ok (), w ++ [uri])

end database

/-! ## pkg/database/types and pkg/apis/schemas, as used by pkg/generate -/

namespace types

/-- Go `types.KeyConstraint`, with the fields `GetTablePrimaryKey` fills in. -/
structure KeyConstraint where
  Name : String
  Columns : List String
  IsPrimary : Bool
  deriving DecidableEq, Repr

/-- Go `types.Index`, with the fields `ListTableIndexes` fills in. -/
structure Index where
  Name : String
  Columns : List String
  IsUnique : Bool
  deriving DecidableEq, Repr

/-- Go `ColumnToSchemaColumn(column *Column)` of `column.go`; its error is always nil. -/
def ColumnToSchemaColumn (column : Column) : Except Error SQLTableColumn :=
  let schemaColumn : SQLTableColumn :=
    { Name := column.Name, Type_ := column.DataType, Constraints := none, Default := none }
  let schemaColumn : SQLTableColumn :=
    match column.Constraints with
    | some constraints =>
        { schemaColumn with Constraints := some { NotNull := constraints.NotNull } }
    | none => schemaColumn
  let schemaColumn : SQLTableColumn := { schemaColumn with Default := column.ColumnDefault }
  .ok schemaColumn

end types

/-- Go `SQLTableSchema { PrimaryKey []string; Columns []*SQLTableColumn; ForeignKeys
[]*SQLTableForeignKey; Indexes []*SQLTableIndex }`, the four fields `generateTableYAML`
assigns.  The schema types of a foreign key and of an index are declared outside the files at
hand and are left open as `φ` and `ι`. -/
structure SQLTableSchema (φ ι : Type) where
  PrimaryKey : List String
  Columns : List SQLTableColumn
  ForeignKeys : List φ
  Indexes : List ι
  deriving DecidableEq, Repr

/-! ## pkg/generate/generate.go -/

namespace generate

open types

/-- The loop `for _, column := range columns` of `generateTableYAML`: every column is
converted and appended, and the first conversion error is returned. -/
def schemaTableColumnsLoop : List Column → List SQLTableColumn →
    Except Error (List SQLTableColumn)
  | [], schemaTableColumns => .ok schemaTableColumns
  | column :: rest, schemaTableColumns =>
      match ColumnToSchemaColumn column with
      | .error err => .error err
      | .ok schemaTableColumn =>
          schemaTableColumnsLoop rest (schemaTableColumns ++ [schemaTableColumn])

/-- Lines 119 to 162 of `generateTableYAML`: the value `schemaHeroResource`, the `TableSpec`
that is then marshalled.  The converters `ForeignKeyToSchemaForeignKey` and
`IndexToSchemaIndex` are defined in files not at hand and are taken as parameters.  The
schema is the `TableSchema` with the three payload fields read by `database.go`; this
function assigns `Postgres` or `Mysql` and has no other branch. -/
def generatedTableSpec {φ ι : Type}
    (ForeignKeyToSchemaForeignKey : ForeignKey → φ) (IndexToSchemaIndex : Index → ι)
    (driver dbName tableName : String) (primaryKey : KeyConstraint)
    (foreignKeys : List ForeignKey) (indexes : List Index) (columns : List Column) :
    Except Error (database.TableSpec (SQLTableSchema φ ι)) :=
  let schemaForeignKeys : List φ :=
    foreignKeys.foldl
      (fun acc foreignKey => acc ++ [ForeignKeyToSchemaForeignKey foreignKey]) []
  let schemaIndexes : List ι :=
    indexes.foldl (fun acc index => acc ++ [IndexToSchemaIndex index]) []
  match schemaTableColumnsLoop columns [] with
  | .error err => .error err
  | .ok schemaTableColumns =>
      let tableSchema : SQLTableSchema φ ι :=
        { PrimaryKey := primaryKey.Columns
          Columns := schemaTableColumns
          ForeignKeys := schemaForeignKeys
          Indexes := schemaIndexes }
      let schema : database.TableSchema (SQLTableSchema φ ι) :=
        { Postgres := none, Mysql := none, CockroachDB := none }
      let schema : database.TableSchema (SQLTableSchema φ ι) :=
        if driver = "postgres" then
          { schema with Postgres := some tableSchema }
        else if driver = "mysql" then
          { schema with Mysql := some tableSchema }
        else
          schema
      .ok { Database := dbName, Name := tableName, Requires := [], Schema := some schema }

/-- Go `sanitizeName(name)`: every `_` becomes `-`. -/
def sanitizeName (name : String) : String :=
  name.replace "_" "-"

/-- Go `generateTableYAML`.  `marshal` stands for `yaml.Marshal` applied to the document
whose only field `spec` is the `TableSpec`. -/
def generateTableYAML {φ ι : Type}
    (ForeignKeyToSchemaForeignKey : ForeignKey → φ) (IndexToSchemaIndex : Index → ι)
    (marshal : database.TableSpec (SQLTableSchema φ ι) → Except Error String)
    (driver dbName tableName : String) (primaryKey : KeyConstraint)
    (foreignKeys : List ForeignKey) (indexes : List Index) (columns : List Column) :
    Except Error String :=
  match generatedTableSpec ForeignKeyToSchemaForeignKey IndexToSchemaIndex driver dbName
      tableName primaryKey foreignKeys indexes columns with
  | .error err => .error err
  | .ok schemaHeroResource =>
      match marshal schemaHeroResource with
      | .error err => .error err
      | .ok b =>
          .ok ("apiVersion: schemas.schemahero.io/v1alpha2\nkind: Table\nmetadata:\n  name: "
            ++ sanitizeName tableName ++ "\n" ++ b)

end generate

/-! ## Properties -/

open types mysql

/-! ### NOT-NULL equivalence -/

/-- C1: `NotNullConstraintEquals a b` holds exactly when both arguments are absent-or-false
or both are explicit true; the six rows of the truth table and their mirror images follow. -/
theorem NotNullConstraintEquals_spec :
    (∀ a b : Option Bool,
      NotNullConstraintEquals a b = true ↔
        ((a = none ∨ a = some false) ∧ (b = none ∨ b = some false)) ∨
          (a = some true ∧ b = some true)) ∧
    NotNullConstraintEquals none none = true ∧
    NotNullConstraintEquals none (some false) = true ∧
    NotNullConstraintEquals (some false) (some false) = true ∧
    NotNullConstraintEquals (some true) (some true) = true ∧
    NotNullConstraintEquals none (some true) = false ∧
    NotNullConstraintEquals (some false) (some true) = false ∧
    NotNullConstraintEquals (some false) none = true ∧
    NotNullConstraintEquals (some true) none = false ∧
    NotNullConstraintEquals (some true) (some false) = false := by
  refine ⟨?_, by decide, by decide, by decide, by decide, by decide, by decide, by decide,
    by decide, by decide⟩
  intro a b
  rcases a with _ | _ | _ <;> rcases b with _ | _ | _ <;> simp [NotNullConstraintEquals]

/-! ### columnsMatch -/

/-- What `columnsMatch` computes: equal data types, equal default pointers (by address), and
NOT-NULL flags equal under the tri-state rule, a missing constraints object counting as an
absent flag. -/
theorem columnsMatch_iff (col1 col2 : Column) :
    columnsMatch col1 col2 = true ↔
      col1.DataType = col2.DataType ∧
      ptrEq col1.ColumnDefault col2.ColumnDefault = true ∧
      NotNullConstraintEquals col1.notNull col2.notNull = true := by
  unfold columnsMatch Column.notNull
  by_cases hd : col1.DataType = col2.DataType
  · by_cases hp : ptrEq col1.ColumnDefault col2.ColumnDefault = true
    · cases h1 : col1.Constraints <;> cases h2 : col2.Constraints <;> simp [hd, hp]
    · simp [hd, hp]
  · simp [hd]

/-- C2 (the code at the failing input): two columns of the same data type, the same default
text `"0"` held at two different addresses and the same NOT-NULL setting do not match. -/
theorem columnsMatch_same_text_other_address :
    let col1 : Column :=
      { Name := "count", DataType := "int (11)", ColumnDefault := some ⟨1, "0"⟩,
        Constraints := some ⟨some true⟩, IsArray := false }
    let col2 : Column :=
      { Name := "count", DataType := "int (11)", ColumnDefault := some ⟨2, "0"⟩,
        Constraints := some ⟨some true⟩, IsArray := false }
    col1.DataType = col2.DataType ∧
    col1.ColumnDefault.map (·.val) = col2.ColumnDefault.map (·.val) ∧
    NotNullConstraintEquals col1.notNull col2.notNull = true ∧
    columnsMatch col1 col2 = false := by
  decide

/-! ### AlterColumnStatement -/

/-- The primary-key loop computes membership of the name in the primary-key list. -/
theorem isPrimaryKeyLoop_eq (name : String) (primaryKeys : List String) (b : Bool) :
    isPrimaryKeyLoop name primaryKeys b = (b || decide (name ∈ primaryKeys)) := by
  unfold isPrimaryKeyLoop
  induction primaryKeys generalizing b with
  | nil => simp
  | cons k ks ih =>
    rw [List.foldl_cons, ih]
    by_cases h : name = k
    · subst h; simp
    · have hk : (name == k) = false := by simpa using h
      simp [hk, h]

/-- The string `AlterColumnStatement` returns is the rendering of the statement value chosen
by the same control flow. -/
theorem AlterColumnStatement_eq_render
    (conv : SQLTableColumn → Except Error Column)
    (modifyString : AlterModifyColumnStatement → String)
    (dropString : AlterDropColumnStatement → String)
    (tableName : String) (primaryKeys : List String)
    (desiredColumns : List SQLTableColumn) (existingColumn : Column) :
    AlterColumnStatement conv modifyString dropString tableName primaryKeys desiredColumns
        existingColumn =
      match alterColumnChoice conv tableName primaryKeys desiredColumns existingColumn with
      | .error err => .error err
      | .ok statement => .ok (statement.render modifyString dropString) := by
  induction desiredColumns with
  | nil => simp [AlterColumnStatement, alterColumnChoice, AlterStatement.render]
  | cons d rest ih =>
    unfold AlterColumnStatement alterColumnChoice
    by_cases hn : d.Name = existingColumn.Name
    · simp only [hn, if_true]
      cases hc : conv d with
      | error err => simp
      | ok column =>
        by_cases hm : columnsMatch existingColumn column = true
        · simp [hm, AlterStatement.render]
        · simp [hm, AlterStatement.render]
    · simp only [hn, if_false]
      exact ih

/-- The statement chosen when no desired column bears the existing column's name. -/
theorem alterColumnChoice_unmatched
    (conv : SQLTableColumn → Except Error Column)
    (tableName : String) (primaryKeys : List String)
    (desiredColumns : List SQLTableColumn) (existingColumn : Column)
    (h : ∀ d ∈ desiredColumns, d.Name ≠ existingColumn.Name) :
    alterColumnChoice conv tableName primaryKeys desiredColumns existingColumn =
      .ok (.drop
        { TableName := tableName
          Column := { Name := existingColumn.Name, DataType := "", ColumnDefault := none,
                      Constraints := none, IsArray := false } }) := by
  induction desiredColumns with
  | nil => simp [alterColumnChoice]
  | cons d rest ih =>
    unfold alterColumnChoice
    have hd : d.Name ≠ existingColumn.Name := h d (List.mem_cons_self _ _)
    simp only [hd, if_false]
    exact ih (fun x hx => h x (List.mem_cons_of_mem _ hx))

/-- The statement chosen when `d` is the first desired column bearing the existing column's
name and it converts to `column`. -/
theorem alterColumnChoice_matched
    (conv : SQLTableColumn → Except Error Column)
    (tableName : String) (primaryKeys : List String)
    (desiredColumns : List SQLTableColumn) (existingColumn : Column)
    (d : SQLTableColumn) (column : Column)
    (hfind : desiredColumns.find? (fun x => x.Name == existingColumn.Name) = some d)
    (hconv : conv d = .ok column) :
    alterColumnChoice conv tableName primaryKeys desiredColumns existingColumn =
      if columnsMatch existingColumn column then .ok .empty
      else .ok (.modify
        { TableName := tableName
          Column := clearNotNullIfPrimaryKey (decide (column.Name ∈ primaryKeys)) column }) := by
  induction desiredColumns with
  | nil => simp at hfind
  | cons x rest ih =>
    unfold alterColumnChoice
    by_cases hn : x.Name = existingColumn.Name
    · have hx : x = d := by simpa [List.find?_cons, hn] using hfind
      subst hx
      simp only [hn, if_true, hconv, isPrimaryKeyLoop_eq, Bool.false_or]
    · have hb : (x.Name == existingColumn.Name) = false := by simpa using hn
      rw [List.find?_cons, hb] at hfind
      simp only [hn, if_false]
      exact ih hfind

/-- When the first desired column bearing the existing column's name converts to a column
that `columnsMatch` accepts, the empty statement is returned without error, primary-key
column or not. -/
theorem AlterColumnStatement_empty_of_match
    (conv : SQLTableColumn → Except Error Column)
    (modifyString : AlterModifyColumnStatement → String)
    (dropString : AlterDropColumnStatement → String)
    (tableName : String) (primaryKeys : List String)
    (desiredColumns : List SQLTableColumn) (existingColumn : Column)
    (d : SQLTableColumn) (column : Column)
    (hfind : desiredColumns.find? (fun x => x.Name == existingColumn.Name) = some d)
    (hconv : conv d = .ok column)
    (hmatch : columnsMatch existingColumn column = true) :
    AlterColumnStatement conv modifyString dropString tableName primaryKeys desiredColumns
        existingColumn = .ok "" := by
  rw [AlterColumnStatement_eq_render,
    alterColumnChoice_matched conv tableName primaryKeys desiredColumns existingColumn d column
      hfind hconv]
  simp [hmatch, AlterStatement.render]

/-- C3 (the code at the failing input): the existing column `status` and the desired column
`status` have the same data type, the same default text `"new"` and equivalent NOT-NULL
settings, the desired default being a string of its own; the code returns the rendering of a
modify statement, not the empty statement. -/
theorem AlterColumnStatement_same_default_text_modifies
    (modifyString : AlterModifyColumnStatement → String)
    (dropString : AlterDropColumnStatement → String) :
    let existing : Column :=
      { Name := "status", DataType := "varchar (10)", ColumnDefault := some ⟨1, "new"⟩,
        Constraints := some ⟨some false⟩, IsArray := false }
    let desired : SQLTableColumn :=
      { Name := "status", Type_ := "varchar (10)", Constraints := none,
        Default := some ⟨2, "new"⟩ }
    let converted : Column :=
      { Name := "status", DataType := "varchar (10)", ColumnDefault := some ⟨2, "new"⟩,
        Constraints := none, IsArray := false }
    carryOver desired = .ok converted ∧
    existing.DataType = converted.DataType ∧
    existing.ColumnDefault.map (·.val) = converted.ColumnDefault.map (·.val) ∧
    NotNullConstraintEquals existing.notNull converted.notNull = true ∧
    alterColumnChoice carryOver "users" ["id"] [desired] existing =
      .ok (.modify { TableName := "users", Column := converted }) ∧
    AlterColumnStatement carryOver modifyString dropString "users" ["id"] [desired] existing =
      .ok (modifyString { TableName := "users", Column := converted }) := by
  intro existing desired converted
  have hchoice : alterColumnChoice carryOver "users" ["id"] [desired] existing =
      .ok (.modify { TableName := "users", Column := converted }) := by decide
  refine ⟨rfl, by decide, by decide, by decide, hchoice, ?_⟩
  rw [AlterColumnStatement_eq_render, hchoice]
  rfl

/-- C4: when no desired column bears the existing column's name (the empty desired list
included), `AlterColumnStatement` returns without error the rendering of the drop statement
for the given table whose column carries the existing column's name and nothing else; this
holds for every conversion function, so no desired column is converted on the way. -/
theorem AlterColumnStatement_drop
    (conv : SQLTableColumn → Except Error Column)
    (modifyString : AlterModifyColumnStatement → String)
    (dropString : AlterDropColumnStatement → String)
    (tableName : String) (primaryKeys : List String)
    (desiredColumns : List SQLTableColumn) (existingColumn : Column)
    (h : ∀ d ∈ desiredColumns, d.Name ≠ existingColumn.Name) :
    AlterColumnStatement conv modifyString dropString tableName primaryKeys desiredColumns
        existingColumn =
      .ok (dropString
        { TableName := tableName
          Column := { Name := existingColumn.Name, DataType := "", ColumnDefault := none,
                      Constraints := none, IsArray := false } }) ∧
    alterColumnChoice conv tableName primaryKeys desiredColumns existingColumn =
      .ok (.drop
        { TableName := tableName
          Column := { Name := existingColumn.Name, DataType := "", ColumnDefault := none,
                      Constraints := none, IsArray := false } }) := by
  have hchoice := alterColumnChoice_unmatched conv tableName primaryKeys desiredColumns
    existingColumn h
  refine ⟨?_, hchoice⟩
  rw [AlterColumnStatement_eq_render, hchoice]
  rfl

/-- Witness for C4: the existing column `legacy_col` against the desired names `id`, `name`,
with a conversion that fails on every column. -/
theorem AlterColumnStatement_drop_witness :
    (∀ d ∈ ([⟨"id", "int (11)", some ⟨some true⟩, none⟩, ⟨"name", "text", none, none⟩] :
        List SQLTableColumn), d.Name ≠ "legacy_col") ∧
    AlterColumnStatement (fun _ => .error "unsupported column type")
        (fun s => "modify " ++ s.Column.Name) (fun s => "drop " ++ s.Column.Name)
        "users" ["id"]
        [⟨"id", "int (11)", some ⟨some true⟩, none⟩, ⟨"name", "text", none, none⟩]
        { Name := "legacy_col", DataType := "text", ColumnDefault := some ⟨7, "x"⟩,
          Constraints := some ⟨some false⟩, IsArray := false } =
      .ok "drop legacy_col" :=
  ⟨by decide,
   (AlterColumnStatement_drop (fun _ => .error "unsupported column type")
      (fun s => "modify " ++ s.Column.Name) (fun s => "drop " ++ s.Column.Name)
      "users" ["id"]
      [⟨"id", "int (11)", some ⟨some true⟩, none⟩, ⟨"name", "text", none, none⟩]
      { Name := "legacy_col", DataType := "text", ColumnDefault := some ⟨7, "x"⟩,
        Constraints := some ⟨some false⟩, IsArray := false } (by decide)).1⟩

/-- C5: when the first desired column bearing the existing column's name converts without
error to `column`, `column` does not match the existing column and its name is not a
primary-key column, `AlterColumnStatement` returns without error the rendering of the modify
statement for the given table that carries `column` as converted; the statement chosen is
neither a drop statement nor the empty one. -/
theorem AlterColumnStatement_modify
    (conv : SQLTableColumn → Except Error Column)
    (modifyString : AlterModifyColumnStatement → String)
    (dropString : AlterDropColumnStatement → String)
    (tableName : String) (primaryKeys : List String)
    (desiredColumns : List SQLTableColumn) (existingColumn : Column)
    (d : SQLTableColumn) (column : Column)
    (hfind : desiredColumns.find? (fun x => x.Name == existingColumn.Name) = some d)
    (hconv : conv d = .ok column)
    (hmatch : columnsMatch existingColumn column = false)
    (hpk : column.Name ∉ primaryKeys) :
    AlterColumnStatement conv modifyString dropString tableName primaryKeys desiredColumns
        existingColumn =
      .ok (modifyString { TableName := tableName, Column := column }) ∧
    alterColumnChoice conv tableName primaryKeys desiredColumns existingColumn =
      .ok (.modify { TableName := tableName, Column := column }) ∧
    (∀ statement, alterColumnChoice conv tableName primaryKeys desiredColumns existingColumn ≠
      .ok (.drop statement)) ∧
    alterColumnChoice conv tableName primaryKeys desiredColumns existingColumn ≠ .ok .empty := by
  have hchoice : alterColumnChoice conv tableName primaryKeys desiredColumns existingColumn =
      .ok (.modify { TableName := tableName, Column := column }) := by
    rw [alterColumnChoice_matched conv tableName primaryKeys desiredColumns existingColumn d
      column hfind hconv]
    simp [hmatch, hpk, clearNotNullIfPrimaryKey]
  refine ⟨?_, hchoice, ?_, ?_⟩
  · rw [AlterColumnStatement_eq_render, hchoice]
    rfl
  · intro statement h
    rw [hchoice] at h
    cases h
  · intro h
    rw [hchoice] at h
    cases h

/-- Witness for C5: the existing nullable `email text` against the desired
`email text not null`, `email` not being a primary-key column. -/
theorem AlterColumnStatement_modify_witness :
    AlterColumnStatement carryOver (fun s => "modify " ++ s.Column.Name)
        (fun s => "drop " ++ s.Column.Name) "users" ["id"]
        [⟨"id", "integer", some ⟨some true⟩, none⟩, ⟨"email", "text", some ⟨some true⟩, none⟩]
        { Name := "email", DataType := "text", ColumnDefault := none,
          Constraints := some ⟨some false⟩, IsArray := false } =
      .ok "modify email" :=
  (AlterColumnStatement_modify carryOver (fun s => "modify " ++ s.Column.Name)
      (fun s => "drop " ++ s.Column.Name) "users" ["id"]
      [⟨"id", "integer", some ⟨some true⟩, none⟩, ⟨"email", "text", some ⟨some true⟩, none⟩]
      { Name := "email", DataType := "text", ColumnDefault := none,
        Constraints := some ⟨some false⟩, IsArray := false }
      ⟨"email", "text", some ⟨some true⟩, none⟩
      { Name := "email", DataType := "text", ColumnDefault := none,
        Constraints := some ⟨some true⟩, IsArray := false }
      (by decide) (by decide) (by decide) (by decide)).1

/-- Whenever a modify statement is chosen, it stems from the first desired column bearing the
existing column's name, which converted without error to a column that does not match. -/
theorem alterColumnChoice_modify_inv
    (conv : SQLTableColumn → Except Error Column)
    (tableName : String) (primaryKeys : List String)
    (desiredColumns : List SQLTableColumn) (existingColumn : Column)
    (statement : AlterModifyColumnStatement)
    (h : alterColumnChoice conv tableName primaryKeys desiredColumns existingColumn =
      .ok (.modify statement)) :
    ∃ d column,
      desiredColumns.find? (fun x => x.Name == existingColumn.Name) = some d ∧
      conv d = .ok column ∧
      columnsMatch existingColumn column = false ∧
      statement =
        { TableName := tableName
          Column := clearNotNullIfPrimaryKey (decide (column.Name ∈ primaryKeys)) column } := by
  induction desiredColumns with
  | nil => simp [alterColumnChoice] at h
  | cons x rest ih =>
    unfold alterColumnChoice at h
    by_cases hn : x.Name = existingColumn.Name
    · simp only [hn, if_true] at h
      cases hc : conv x with
      | error err => simp [hc] at h
      | ok column =>
        by_cases hm : columnsMatch existingColumn column = true
        · simp [hc, hm] at h
        · simp only [hc, hm, isPrimaryKeyLoop_eq, Bool.false_or] at h
          refine ⟨x, column, by simp [List.find?_cons, hn], hc, by simpa using hm, ?_⟩
          simpa using h.symm
    · simp only [hn, if_false] at h
      obtain ⟨d, column, hf, hconv, hm, hs⟩ := ih h
      have hb : (x.Name == existingColumn.Name) = false := by simpa using hn
      exact ⟨d, column, by rw [List.find?_cons, hb]; exact hf, hconv, hm, hs⟩

/-- Clearing the NOT-NULL flag leaves the other fields of the column alone. -/
theorem clearNotNullIfPrimaryKey_fields (isPrimaryKey : Bool) (column : Column) :
    (clearNotNullIfPrimaryKey isPrimaryKey column).Name = column.Name ∧
    (clearNotNullIfPrimaryKey isPrimaryKey column).DataType = column.DataType ∧
    (clearNotNullIfPrimaryKey isPrimaryKey column).ColumnDefault = column.ColumnDefault ∧
    (clearNotNullIfPrimaryKey isPrimaryKey column).IsArray = column.IsArray := by
  unfold clearNotNullIfPrimaryKey
  cases isPrimaryKey <;> cases column.Constraints <;> simp

/-- For a primary-key column the flag carried after clearing is absent. -/
theorem clearNotNullIfPrimaryKey_notNull (column : Column) :
    (clearNotNullIfPrimaryKey true column).notNull = none := by
  unfold clearNotNullIfPrimaryKey Column.notNull
  cases h : column.Constraints <;> simp [h]

/-- C6: whenever `AlterColumnStatement` emits a modify statement, the statement is for the
given table and carries the conversion `column` of the first desired column bearing the
existing column's name, with the same name, data type and default; if that name is in the
primary-key list the carried NOT-NULL flag is absent whatever the desired column asked for,
and if it is not the column is carried as converted, flag included. -/
theorem AlterColumnStatement_primaryKey_override
    (conv : SQLTableColumn → Except Error Column)
    (modifyString : AlterModifyColumnStatement → String)
    (dropString : AlterDropColumnStatement → String)
    (tableName : String) (primaryKeys : List String)
    (desiredColumns : List SQLTableColumn) (existingColumn : Column)
    (statement : AlterModifyColumnStatement)
    (hemit : alterColumnChoice conv tableName primaryKeys desiredColumns existingColumn =
      .ok (.modify statement)) :
    AlterColumnStatement conv modifyString dropString tableName primaryKeys desiredColumns
        existingColumn = .ok (modifyString statement) ∧
    ∃ d column,
      desiredColumns.find? (fun x => x.Name == existingColumn.Name) = some d ∧
      conv d = .ok column ∧
      statement.TableName = tableName ∧
      statement.Column.Name = column.Name ∧
      statement.Column.DataType = column.DataType ∧
      statement.Column.ColumnDefault = column.ColumnDefault ∧
      (column.Name ∈ primaryKeys → statement.Column.notNull = none) ∧
      (column.Name ∉ primaryKeys →
        statement.Column = column ∧ statement.Column.notNull = column.notNull) := by
  refine ⟨?_, ?_⟩
  · rw [AlterColumnStatement_eq_render, hemit]
    rfl
  · obtain ⟨d, column, hf, hconv, _, hs⟩ :=
      alterColumnChoice_modify_inv conv tableName primaryKeys desiredColumns existingColumn
        statement hemit
    refine ⟨d, column, hf, hconv, ?_⟩
    subst hs
    obtain ⟨h1, h2, h3, _⟩ :=
      clearNotNullIfPrimaryKey_fields (decide (column.Name ∈ primaryKeys)) column
    refine ⟨rfl, h1, h2, h3, ?_, ?_⟩
    · intro hin
      simp only [hin, decide_True]
      exact clearNotNullIfPrimaryKey_notNull column
    · intro hnot
      simp [hnot, clearNotNullIfPrimaryKey]

/-- Witness for C6: the desired `id bigint not null`, listed in the primary key, against the
existing `id int (11) not null`; the modify statement carries `id bigint` with the flag
cleared. -/
theorem AlterColumnStatement_primaryKey_override_witness :
    AlterColumnStatement carryOver (fun s => "modify " ++ s.Column.Name)
        (fun s => "drop " ++ s.Column.Name) "users" ["id"]
        [⟨"id", "bigint", some ⟨some true⟩, none⟩]
        { Name := "id", DataType := "int (11)", ColumnDefault := none,
          Constraints := some ⟨some true⟩, IsArray := false } =
      .ok ((fun s => "modify " ++ s.Column.Name)
        ({ TableName := "users"
           Column := { Name := "id", DataType := "bigint", ColumnDefault := none,
                       Constraints := some ⟨none⟩, IsArray := false } } :
          AlterModifyColumnStatement)) :=
  (AlterColumnStatement_primaryKey_override carryOver (fun s => "modify " ++ s.Column.Name)
      (fun s => "drop " ++ s.Column.Name) "users" ["id"]
      [⟨"id", "bigint", some ⟨some true⟩, none⟩]
      { Name := "id", DataType := "int (11)", ColumnDefault := none,
        Constraints := some ⟨some true⟩, IsArray := false }
      { TableName := "users"
        Column := { Name := "id", DataType := "bigint", ColumnDefault := none,
                    Constraints := some ⟨none⟩, IsArray := false } }
      (by decide)).1

/-! ### ListTableForeignKeys -/

/-- C7 (the code at the failing input): two rows of `fk_orders_customer` with child columns
`customer_id`, `region_id` and parent columns `id`, `region` give one foreign key whose
`ChildColumns` is `[region_id, region_id]` and whose `ParentColumns` is `[region, region]`;
the first row's pair is lost and the second row's pair appears twice. -/
theorem ListTableForeignKeys_second_row_overwrites :
    ListTableForeignKeys (.ok
      [.ok ⟨"customer_id", "fk_orders_customer", "customers", "id", "CASCADE"⟩,
       .ok ⟨"region_id", "fk_orders_customer", "customers", "region", "CASCADE"⟩]) =
    .ok [{ Name := "fk_orders_customer", ParentTable := "customers", OnDelete := "CASCADE",
           ChildColumns := ["region_id", "region_id"],
           ParentColumns := ["region", "region"] }] := by
  decide

/-- The inner loop finds nothing only when no entry bears the name. -/
theorem appendToFound_none (foreignKey : ForeignKey) (child parent name : String)
    (fks : List ForeignKey)
    (h : appendToFound foreignKey child parent name fks = none) :
    name ∉ fks.map ForeignKey.Name := by
  induction fks with
  | nil => simp
  | cons x rest ih =>
    unfold appendToFound at h
    by_cases hx : x.Name = name
    · simp [hx] at h
    · simp only [hx, if_false] at h
      cases hr : appendToFound foreignKey child parent name rest with
      | some u => simp [hr] at h
      | none =>
        have hrest := ih hr
        simp only [List.map_cons, List.mem_cons, not_or]
        exact ⟨fun e => hx e.symm, hrest⟩

/-- When the inner loop finds an entry, the name was present, the names of the list are
unchanged, and every entry keeps the name, parent table and delete rule of an entry that was
already there. -/
theorem appendToFound_some (foreignKey : ForeignKey) (child parent name : String)
    (fks updated : List ForeignKey)
    (h : appendToFound foreignKey child parent name fks = some updated) :
    name ∈ fks.map ForeignKey.Name ∧
    updated.map ForeignKey.Name = fks.map ForeignKey.Name ∧
    ∀ x ∈ updated, ∃ y ∈ fks,
      y.Name = x.Name ∧ y.ParentTable = x.ParentTable ∧ y.OnDelete = x.OnDelete := by
  induction fks generalizing updated with
  | nil => simp [appendToFound] at h
  | cons x rest ih =>
    unfold appendToFound at h
    by_cases hx : x.Name = name
    · rw [if_pos hx, Option.some.injEq] at h
      subst h
      refine ⟨List.mem_cons.2 (Or.inl hx.symm), by simp, ?_⟩
      intro z hz
      rcases List.mem_cons.1 hz with hz | hz
      · subst hz
        exact ⟨x, List.mem_cons_self _ _, rfl, rfl, rfl⟩
      · exact ⟨z, List.mem_cons_of_mem _ hz, rfl, rfl, rfl⟩
    · simp only [hx, if_false] at h
      cases hr : appendToFound foreignKey child parent name rest with
      | none => simp [hr] at h
      | some u =>
        simp only [hr, Option.map_some', Option.some.injEq] at h
        subst h
        obtain ⟨h1, h2, h3⟩ := ih u hr
        refine ⟨by simp [h1], by simp [h2], ?_⟩
        intro z hz
        rcases List.mem_cons.1 hz with hz | hz
        · subst hz
          exact ⟨z, List.mem_cons_self _ _, rfl, rfl, rfl⟩
        · obtain ⟨y, hy, hh⟩ := h3 z hz
          exact ⟨y, List.mem_cons_of_mem _ hy, hh⟩

/-- The names after one row: unchanged when the row's name is known, extended by it at the
end otherwise. -/
theorem foreignKeyStep_names (fks : List ForeignKey) (row : ForeignKeyRow) :
    (foreignKeyStep fks row).map ForeignKey.Name =
      if row.name ∈ fks.map ForeignKey.Name then fks.map ForeignKey.Name
      else fks.map ForeignKey.Name ++ [row.name] := by
  unfold foreignKeyStep
  cases hr : appendToFound
      ⟨[row.childColumn], row.parentTable, [row.parentColumn], row.name, row.deleteRule⟩
      row.childColumn row.parentColumn row.name fks with
  | none =>
    have hn := appendToFound_none _ _ _ _ _ hr
    simp [hr, hn]
  | some u =>
    obtain ⟨h1, h2, _⟩ := appendToFound_some _ _ _ _ _ _ hr
    simp [hr, h1, h2]

/-- Every entry after one row keeps the name, parent table and delete rule of an entry that
was there before, or is the entry freshly made of a row whose name was unknown. -/
theorem foreignKeyStep_header (fks : List ForeignKey) (row : ForeignKeyRow) :
    ∀ x ∈ foreignKeyStep fks row,
      (∃ y ∈ fks, y.Name = x.Name ∧ y.ParentTable = x.ParentTable ∧ y.OnDelete = x.OnDelete) ∨
      (row.name ∉ fks.map ForeignKey.Name ∧ x.Name = row.name ∧
        x.ParentTable = row.parentTable ∧ x.OnDelete = row.deleteRule) := by
  intro x hx
  unfold foreignKeyStep at hx
  cases hr : appendToFound
      ⟨[row.childColumn], row.parentTable, [row.parentColumn], row.name, row.deleteRule⟩
      row.childColumn row.parentColumn row.name fks with
  | none =>
    have hn := appendToFound_none _ _ _ _ _ hr
    simp only [hr, List.mem_append, List.mem_singleton] at hx
    rcases hx with hx | hx
    · exact Or.inl ⟨x, hx, rfl, rfl, rfl⟩
    · subst hx
      exact Or.inr ⟨hn, rfl, rfl, rfl⟩
  | some u =>
    obtain ⟨_, _, h3⟩ := appendToFound_some _ _ _ _ _ _ hr
    simp only [hr] at hx
    exact Or.inl (h3 x hx)

/-- On rows that all scan, the row loop is the left fold of the loop body. -/
theorem foreignKeysLoop_ok (rows : List ForeignKeyRow) (fks : List ForeignKey) :
    foreignKeysLoop (rows.map .ok) fks = .ok (rows.foldl foreignKeyStep fks) := by
  induction rows generalizing fks with
  | nil => simp [foreignKeysLoop]
  | cons r rs ih => simp [foreignKeysLoop, ih]

/-- The first-seen names of a list are exactly the names of the list. -/
theorem mem_firstSeenNames (names : List String) (n : String) :
    n ∈ firstSeenNames names ↔ n ∈ names := by
  induction names with
  | nil => simp [firstSeenNames]
  | cons a rest ih =>
    simp only [firstSeenNames, List.mem_cons, List.mem_filter, ih]
    by_cases h : n = a
    · simp [h]
    · simp [h]

/-- No name occurs twice among the first-seen names. -/
theorem nodup_firstSeenNames (names : List String) : (firstSeenNames names).Nodup := by
  induction names with
  | nil => simp [firstSeenNames]
  | cons a rest ih =>
    simp only [firstSeenNames, List.nodup_cons]
    exact ⟨by simp [List.mem_filter], ih.filter _⟩

/-- The names after the row loop: the names held before, then the first-seen names of the
rows that were not yet held. -/
theorem foldl_foreignKeyStep_names (rows : List ForeignKeyRow) (fks : List ForeignKey) :
    (rows.foldl foreignKeyStep fks).map ForeignKey.Name =
      fks.map ForeignKey.Name ++
        (firstSeenNames (rows.map ForeignKeyRow.name)).filter
          (fun n => decide (n ∉ fks.map ForeignKey.Name)) := by
  induction rows generalizing fks with
  | nil => simp [firstSeenNames]
  | cons r rs ih =>
    rw [List.foldl_cons, ih, foreignKeyStep_names]
    simp only [List.map_cons, firstSeenNames]
    by_cases hr : r.name ∈ fks.map ForeignKey.Name
    · rw [if_pos hr, List.filter_cons_of_neg (by simpa using hr), List.filter_filter]
      congr 1
      apply List.filter_congr
      intro x _
      by_cases hx : x ∈ fks.map ForeignKey.Name
      · simp [hx]
      · have hne : x ≠ r.name := fun e => hx (e ▸ hr)
        simp [hx, hne]
    · rw [if_neg hr, List.filter_cons_of_pos (by simpa using hr), List.filter_filter,
        List.append_assoc, List.singleton_append]
      congr 2
      apply List.filter_congr
      intro x _
      by_cases hx : x ∈ fks.map ForeignKey.Name
      · simp [hx]
      · by_cases hne : x = r.name
        · simp [hne]
        · simp [hx, hne]

/-- Every entry after the row loop keeps the name, parent table and delete rule of an entry
held before, or bears a name not held before and has the parent table and delete rule of the
first row with its name. -/
theorem foldl_foreignKeyStep_header (rows : List ForeignKeyRow) (fks : List ForeignKey) :
    ∀ x ∈ rows.foldl foreignKeyStep fks,
      (∃ y ∈ fks, y.Name = x.Name ∧ y.ParentTable = x.ParentTable ∧ y.OnDelete = x.OnDelete) ∨
      (x.Name ∉ fks.map ForeignKey.Name ∧
        ∃ row, rows.find? (fun r => r.name == x.Name) = some row ∧
          x.ParentTable = row.parentTable ∧ x.OnDelete = row.deleteRule) := by
  induction rows generalizing fks with
  | nil =>
    intro x hx
    exact Or.inl ⟨x, hx, rfl, rfl, rfl⟩
  | cons r rs ih =>
    intro x hx
    rw [List.foldl_cons] at hx
    have hnames := foreignKeyStep_names fks r
    rcases ih (foreignKeyStep fks r) x hx with ⟨y, hy, hyn, hyp, hyd⟩ | ⟨hnot, row, hfind, hp, hd⟩
    · rcases foreignKeyStep_header fks r y hy with ⟨z, hz, hzn, hzp, hzd⟩ | ⟨hnew, hn, hpt, hdr⟩
      · exact Or.inl ⟨z, hz, hzn.trans hyn, hzp.trans hyp, hzd.trans hyd⟩
      · refine Or.inr ⟨?_, r, ?_, ?_, ?_⟩
        · rw [← hyn, hn]; exact hnew
        · have hb : (r.name == x.Name) = true := by
            rw [← hyn, hn]; simp
          rw [List.find?_cons, hb]
        · rw [← hyp, hpt]
        · rw [← hyd, hdr]
    · have hr_in : r.name ∈ (foreignKeyStep fks r).map ForeignKey.Name := by
        rw [hnames]
        by_cases hr : r.name ∈ fks.map ForeignKey.Name
        · rw [if_pos hr]; exact hr
        · rw [if_neg hr]; simp
      have hsub : ∀ n, n ∈ fks.map ForeignKey.Name →
          n ∈ (foreignKeyStep fks r).map ForeignKey.Name := by
        intro n hn
        rw [hnames]
        by_cases hr : r.name ∈ fks.map ForeignKey.Name
        · rw [if_pos hr]; exact hn
        · rw [if_neg hr]; exact List.mem_append_left _ hn
      have hne : r.name ≠ x.Name := fun e => hnot (e ▸ hr_in)
      have hb : (r.name == x.Name) = false := by simpa using hne
      refine Or.inr ⟨fun h => hnot (hsub _ h), row, ?_, hp, hd⟩
      rw [List.find?_cons, hb]
      exact hfind

/-- C8: on rows that all scan, `ListTableForeignKeys` returns without error a list whose
names are the distinct constraint names of the rows in first-seen order (no name twice, none
missing, none added), each entry having the parent table and the delete rule of the first
row with its name; on zero rows it returns the empty list without error. -/
theorem ListTableForeignKeys_grouping (rows : List ForeignKeyRow) :
    (∃ fks, ListTableForeignKeys (.ok (rows.map .ok)) = .ok fks ∧
      fks.map ForeignKey.Name = firstSeenNames (rows.map ForeignKeyRow.name) ∧
      (fks.map ForeignKey.Name).Nodup ∧
      (∀ n, n ∈ fks.map ForeignKey.Name ↔ n ∈ rows.map ForeignKeyRow.name) ∧
      (∀ fk ∈ fks, ∃ row, rows.find? (fun r => r.name == fk.Name) = some row ∧
        fk.ParentTable = row.parentTable ∧ fk.OnDelete = row.deleteRule)) ∧
    ListTableForeignKeys (.ok []) = .ok [] := by
  refine ⟨⟨rows.foldl foreignKeyStep [], ?_, ?_, ?_, ?_, ?_⟩, rfl⟩
  · simp [ListTableForeignKeys, foreignKeysLoop_ok]
  · rw [foldl_foreignKeyStep_names]
    simp
  · rw [foldl_foreignKeyStep_names]
    simpa using nodup_firstSeenNames (rows.map ForeignKeyRow.name)
  · intro n
    rw [foldl_foreignKeyStep_names]
    simpa using mem_firstSeenNames (rows.map ForeignKeyRow.name) n
  · intro fk hfk
    rcases foldl_foreignKeyStep_header rows [] fk hfk with ⟨y, hy, _⟩ | ⟨_, h⟩
    · simp at hy
    · exact h

/-! ### GetTableSchema -/

/-- The column made of a row has the row's name, an explicit NOT-NULL flag that is true exactly
for the indicator `NO`, the reported default if any, and the data type with the length folded
in if any. -/
theorem columnOfRow_spec (addr : Nat) (row : ColumnRow) :
    (columnOfRow addr row).Name = row.name ∧
    (columnOfRow addr row).Constraints = some ⟨some (decide (row.isNullable = "NO"))⟩ ∧
    (columnOfRow addr row).ColumnDefault.map Ptr.val = row.columnDefault ∧
    (row.maxLength = none → (columnOfRow addr row).DataType = row.dataType) ∧
    (∀ n, row.maxLength = some n →
      (columnOfRow addr row).DataType = row.dataType ++ " (" ++ toString n ++ ")") := by
  unfold columnOfRow
  refine ⟨rfl, ?_, ?_, ?_, ?_⟩
  · by_cases h : row.isNullable = "NO" <;> simp [h, trueValue, falseValue]
  · cases row.columnDefault <;> simp
  · intro h; simp [h]
  · intro n h; simp [h]

/-- On rows that all scan, the row loop appends one column per row, in row order, each the
column made of its row. -/
theorem tableSchemaLoop_ok (rows : List ColumnRow) (nextAddr : Nat) (columns : List Column) :
    ∃ added, tableSchemaLoop (rows.map .ok) nextAddr columns = .ok (columns ++ added) ∧
      List.Forall₂ (fun row column => ∃ addr, column = columnOfRow addr row) rows added := by
  induction rows generalizing nextAddr columns with
  | nil => exact ⟨[], by simp [tableSchemaLoop], List.Forall₂.nil⟩
  | cons r rs ih =>
    obtain ⟨added, h1, h2⟩ := ih (nextAddr + 1) (columns ++ [columnOfRow nextAddr r])
    refine ⟨columnOfRow nextAddr r :: added, ?_, List.Forall₂.cons ⟨nextAddr, rfl⟩ h2⟩
    simp only [List.map_cons, tableSchemaLoop, h1]
    simp

/-- C9: on rows that all scan, `GetTableSchema` returns without error one column per row, in
row order; the column of a row has the row's name, a constraints object whose NotNull is
explicit true when the indicator is `NO` and explicit false otherwise, a default that is
present exactly when the row reports one and then holds the reported text (the empty string
included), and as data type the row's type, followed by the length in parentheses after a
blank when a maximum length is reported. -/
theorem GetTableSchema_rows (rows : List ColumnRow) (nextAddr : Nat) :
    ∃ columns, GetTableSchema (.ok (rows.map .ok)) nextAddr = .ok columns ∧
      columns.length = rows.length ∧
      List.Forall₂ (fun row column =>
        column.Name = row.name ∧
        (row.isNullable = "NO" → column.Constraints = some ⟨some true⟩) ∧
        (row.isNullable ≠ "NO" → column.Constraints = some ⟨some false⟩) ∧
        (row.columnDefault = none → column.ColumnDefault = none) ∧
        (∀ text, row.columnDefault = some text →
          ∃ pointer, column.ColumnDefault = some pointer ∧ pointer.val = text) ∧
        (row.maxLength = none → column.DataType = row.dataType) ∧
        (∀ n, row.maxLength = some n →
          column.DataType = row.dataType ++ " (" ++ toString n ++ ")"))
        rows columns := by
  obtain ⟨added, h1, h2⟩ := tableSchemaLoop_ok rows nextAddr []
  refine ⟨added, by simpa [GetTableSchema] using h1, h2.length_eq.symm, ?_⟩
  refine h2.imp ?_
  rintro row column ⟨addr, rfl⟩
  obtain ⟨hn, hc, hd, ht1, ht2⟩ := columnOfRow_spec addr row
  refine ⟨hn, ?_, ?_, ?_, ?_, ht1, ht2⟩
  · intro h; simpa [h] using hc
  · intro h; simpa [h] using hc
  · intro h
    rw [h] at hd
    simpa using hd
  · intro text h
    rw [h] at hd
    cases hp : (columnOfRow addr row).ColumnDefault with
    | none => simp [hp] at hd
    | some pointer => exact ⟨pointer, rfl, by simpa [hp] using hd⟩

/-! ### PlanSync and ApplySync -/

/-- C10: let the URI resolve.  `ApplySync`, and `PlanSync` on a file that reads and parses to
a specification with a schema payload, return the error `unknown database driver` and leave
the state of the databases as it was (no planner and no executor has run) whenever the driver
token is none of `postgres`, `mysql`, `cockroachdb`; for `postgres` and `cockroachdb` they are
the PostgreSQL planner and executor, for `mysql` the MySQL ones, result and state passed
on as returned. -/
theorem dispatch_on_driver {σ ω : Type} (d : database.Env σ ω) (w : ω) (uri : String)
    (huri : database.getURI d = .ok uri) :
    (∀ (filename specContents : String) (spec : database.TableSpec σ)
        (schema : database.TableSchema σ),
      d.ReadFile filename = .ok specContents →
      database.readSpec d specContents = .ok spec →
      spec.Schema = some schema →
      ((d.GetString "driver" ≠ "postgres" ∧ d.GetString "driver" ≠ "mysql" ∧
          d.GetString "driver" ≠ "cockroachdb" →
        database.PlanSync d filename w = (.error "unknown database driver", w)) ∧
       (d.GetString "driver" = "postgres" →
        database.PlanSync d filename w =
          d.PlanPostgresTable uri spec.Name schema.Postgres w) ∧
       (d.GetString "driver" = "mysql" →
        database.PlanSync d filename w =
          d.PlanMysqlTable (d.GetString "uri") spec.Name schema.Mysql w) ∧
       (d.GetString "driver" = "cockroachdb" →
        database.PlanSync d filename w =
          d.PlanPostgresTable (d.GetString "uri") spec.Name schema.CockroachDB w))) ∧
    (∀ statements : List String,
      (d.GetString "driver" ≠ "postgres" ∧ d.GetString "driver" ≠ "mysql" ∧
          d.GetString "driver" ≠ "cockroachdb" →
        database.ApplySync d statements w = (.error "unknown database driver", w)) ∧
      (d.GetString "driver" = "postgres" →
        database.ApplySync d statements w = d.DeployPostgresStatements uri statements w) ∧
      (d.GetString "driver" = "mysql" →
        database.ApplySync d statements w = d.DeployMysqlStatements uri statements w) ∧
      (d.GetString "driver" = "cockroachdb" →
        database.ApplySync d statements w = d.DeployPostgresStatements uri statements w)) := by
  refine ⟨?_, ?_⟩
  · intro filename specContents spec schema hread hspec hschema
    refine ⟨?_, ?_, ?_, ?_⟩
    · rintro ⟨h1, h2, h3⟩
      simp [database.PlanSync, hread, hspec, hschema, huri, h1, h2, h3]
    · intro h
      simp [database.PlanSync, hread, hspec, hschema, huri, h]
    · intro h
      simp [database.PlanSync, hread, hspec, hschema, huri, h]
    · intro h
      simp [database.PlanSync, hread, hspec, hschema, huri, h]
  · intro statements
    refine ⟨?_, ?_, ?_, ?_⟩
    · rintro ⟨h1, h2, h3⟩
      simp [database.ApplySync, huri, h1, h2, h3]
    · intro h
      simp [database.ApplySync, huri, h]
    · intro h
      simp [database.ApplySync, huri, h]
    · intro h
      simp [database.ApplySync, huri, h]

/-- Witness for C10: with the driver token `sqlite` both entry points fail with
`unknown database driver` and no connection string has been used. -/
theorem dispatch_on_driver_witness :
    database.getURI (database.sampleEnv "sqlite") = .ok "mysql://db" ∧
    database.PlanSync (database.sampleEnv "sqlite") "users.yaml" [] =
      (.error "unknown database driver", []) ∧
    database.ApplySync (database.sampleEnv "sqlite") ["alter table users"] [] =
      (.error "unknown database driver", []) :=
  ⟨by decide,
   ((dispatch_on_driver (database.sampleEnv "sqlite") [] "mysql://db" (by decide)).1
      "users.yaml" "name: users"
      { Database := "", Name := "users", Requires := [],
        Schema := some { Postgres := some "pg", Mysql := some "my", CockroachDB := none } }
      { Postgres := some "pg", Mysql := some "my", CockroachDB := none }
      rfl rfl rfl).1 (by decide),
   ((dispatch_on_driver (database.sampleEnv "sqlite") [] "mysql://db" (by decide)).2
      ["alter table users"]).1 (by decide)⟩

/-! ### generateTableYAML -/

/-- The schema column made of a column has its name, data type and default pointer, and a
constraints object exactly when the column has one, with the same NOT-NULL flag. -/
theorem ColumnToSchemaColumn_spec (column : Column) :
    ∃ schemaColumn, ColumnToSchemaColumn column = .ok schemaColumn ∧
      schemaColumn.Name = column.Name ∧
      schemaColumn.Type_ = column.DataType ∧
      schemaColumn.Default = column.ColumnDefault ∧
      schemaColumn.Constraints =
        column.Constraints.map (fun constraints => { NotNull := constraints.NotNull }) := by
  unfold ColumnToSchemaColumn
  cases h : column.Constraints <;> exact ⟨_, rfl, rfl, rfl, rfl, by simp⟩

/-- The column loop never fails: it appends one schema column per column, in order, each the
conversion of its column. -/
theorem schemaTableColumnsLoop_ok (columns : List Column) (acc : List SQLTableColumn) :
    ∃ added, generate.schemaTableColumnsLoop columns acc = .ok (acc ++ added) ∧
      List.Forall₂ (fun column schemaColumn => ColumnToSchemaColumn column = .ok schemaColumn)
        columns added := by
  induction columns generalizing acc with
  | nil => exact ⟨[], by simp [generate.schemaTableColumnsLoop], List.Forall₂.nil⟩
  | cons c cs ih =>
    obtain ⟨sc, hsc, _⟩ := ColumnToSchemaColumn_spec c
    obtain ⟨added, h1, h2⟩ := ih (acc ++ [sc])
    refine ⟨sc :: added, ?_, List.Forall₂.cons hsc h2⟩
    simp only [generate.schemaTableColumnsLoop, hsc, h1]
    simp

/-- Appending the image of each element in turn builds the mapped list. -/
theorem foldl_append_singleton_eq_map {α β : Type} (f : α → β) (xs : List α) (acc : List β) :
    xs.foldl (fun acc x => acc ++ [f x]) acc = acc ++ xs.map f := by
  induction xs generalizing acc with
  | nil => simp
  | cons x rest ih => simp [ih]

/-- The shape of the `TableSpec` that `generateTableYAML` builds, for any driver string: the
payload holds the primary-key columns, the converted columns, foreign keys and indexes in
order, and sits under `Postgres` for `postgres`, under `Mysql` for `mysql`, and nowhere for
any other string. -/
theorem generatedTableSpec_eq {φ ι : Type}
    (fkConv : ForeignKey → φ) (ixConv : Index → ι)
    (driver dbName tableName : String) (primaryKey : KeyConstraint)
    (foreignKeys : List ForeignKey) (indexes : List Index) (columns : List Column) :
    ∃ schemaColumns,
      List.Forall₂ (fun column schemaColumn => ColumnToSchemaColumn column = .ok schemaColumn)
        columns schemaColumns ∧
      generate.generatedTableSpec fkConv ixConv driver dbName tableName primaryKey foreignKeys
          indexes columns =
        .ok { Database := dbName, Name := tableName, Requires := [],
              Schema := some
                (if driver = "postgres" then
                  { Postgres := some ⟨primaryKey.Columns, schemaColumns, foreignKeys.map fkConv,
                      indexes.map ixConv⟩,
                    Mysql := none, CockroachDB := none }
                else if driver = "mysql" then
                  { Postgres := none,
                    Mysql := some ⟨primaryKey.Columns, schemaColumns, foreignKeys.map fkConv,
                      indexes.map ixConv⟩,
                    CockroachDB := none }
                else { Postgres := none, Mysql := none, CockroachDB := none }) } := by
  obtain ⟨added, h1, h2⟩ := schemaTableColumnsLoop_ok columns []
  refine ⟨added, h2, ?_⟩
  unfold generate.generatedTableSpec
  simp only [h1, List.nil_append, foldl_append_singleton_eq_map]

/-- C11 (counterexample): for the dialect identifier `cockroachdb` the `TableSpec` built for
the table `users` of `shop` has a schema none of whose three payloads is populated. -/
theorem generatedTableSpec_cockroachdb_empty :
    generate.generatedTableSpec (fun fk => fk) (fun ix => ix) "cockroachdb" "shop" "users"
        { Name := "PRIMARY", Columns := ["id"], IsPrimary := true } [] []
        [{ Name := "id", DataType := "int (11)", ColumnDefault := none,
           Constraints := some ⟨some true⟩, IsArray := false }] =
      .ok { Database := "shop", Name := "users", Requires := [],
            Schema := some { Postgres := none, Mysql := none, CockroachDB := none } } := by
  rfl

/-- C11 (amended): for the dialect identifiers `postgres` and `mysql` and every introspected
table, `generateTableYAML` builds without error a `TableSpec` whose schema has exactly the
payload of the requested dialect populated, the other two being absent; that payload carries
the introspected primary-key columns, one converted column per introspected column in order,
and the converted foreign keys and indexes in order; the document returned is the marshalled
`TableSpec` under its header; and for every driver string whatever no two payloads of the
built schema are populated at once. -/
theorem generateTableYAML_payload {φ ι : Type}
    (fkConv : ForeignKey → φ) (ixConv : Index → ι)
    (marshal : database.TableSpec (SQLTableSchema φ ι) → Except Error String)
    (driver dbName tableName : String) (primaryKey : KeyConstraint)
    (foreignKeys : List ForeignKey) (indexes : List Index) (columns : List Column)
    (hdriver : driver = "postgres" ∨ driver = "mysql") :
    (∃ spec schema payload,
      generate.generatedTableSpec fkConv ixConv driver dbName tableName primaryKey foreignKeys
        indexes columns = .ok spec ∧
      generate.generateTableYAML fkConv ixConv marshal driver dbName tableName primaryKey
          foreignKeys indexes columns =
        (match marshal spec with
         | .error err => .error err
         | .ok b =>
            .ok ("apiVersion: schemas.schemahero.io/v1alpha2\nkind: Table\nmetadata:\n  name: "
              ++ generate.sanitizeName tableName ++ "\n" ++ b)) ∧
      spec.Schema = some schema ∧
      ((driver = "postgres" ∧
          schema.Postgres = some payload ∧ schema.Mysql = none ∧ schema.CockroachDB = none) ∨
       (driver = "mysql" ∧
          schema.Mysql = some payload ∧ schema.Postgres = none ∧ schema.CockroachDB = none)) ∧
      payload.PrimaryKey = primaryKey.Columns ∧
      List.Forall₂ (fun column schemaColumn =>
          schemaColumn.Name = column.Name ∧
          schemaColumn.Type_ = column.DataType ∧
          schemaColumn.Default = column.ColumnDefault ∧
          schemaColumn.Constraints =
            column.Constraints.map (fun constraints => { NotNull := constraints.NotNull }))
        columns payload.Columns ∧
      payload.ForeignKeys = foreignKeys.map fkConv ∧
      payload.Indexes = indexes.map ixConv) ∧
    (∀ (anyDriver : String) (spec : database.TableSpec (SQLTableSchema φ ι))
        (schema : database.TableSchema (SQLTableSchema φ ι)),
      generate.generatedTableSpec fkConv ixConv anyDriver dbName tableName primaryKey
        foreignKeys indexes columns = .ok spec →
      spec.Schema = some schema →
      ¬ (schema.Postgres ≠ none ∧ schema.Mysql ≠ none) ∧
      ¬ (schema.Postgres ≠ none ∧ schema.CockroachDB ≠ none) ∧
      ¬ (schema.Mysql ≠ none ∧ schema.CockroachDB ≠ none)) := by
  refine ⟨?_, ?_⟩
  · obtain ⟨schemaColumns, hcols, hspec⟩ :=
      generatedTableSpec_eq fkConv ixConv driver dbName tableName primaryKey foreignKeys
        indexes columns
    have hcols2 : List.Forall₂ (fun column schemaColumn =>
          schemaColumn.Name = column.Name ∧
          schemaColumn.Type_ = column.DataType ∧
          schemaColumn.Default = column.ColumnDefault ∧
          schemaColumn.Constraints =
            column.Constraints.map (fun constraints => { NotNull := constraints.NotNull }))
        columns schemaColumns := by
      refine hcols.imp ?_
      intro column schemaColumn h
      obtain ⟨sc, hsc, hprops⟩ := ColumnToSchemaColumn_spec column
      rw [h] at hsc
      cases hsc
      exact hprops
    refine ⟨_, _, ⟨primaryKey.Columns, schemaColumns, foreignKeys.map fkConv,
      indexes.map ixConv⟩, hspec, ?_, rfl, ?_, rfl, hcols2, rfl, rfl⟩
    · simp only [generate.generateTableYAML, hspec]
    · rcases hdriver with h | h
      · exact Or.inl ⟨h, by simp [h]⟩
      · exact Or.inr ⟨h, by simp [h]⟩
  · intro anyDriver spec schema hbuilt hschema
    obtain ⟨schemaColumns, _, hspec⟩ :=
      generatedTableSpec_eq fkConv ixConv anyDriver dbName tableName primaryKey foreignKeys
        indexes columns
    rw [hspec] at hbuilt
    cases hbuilt
    simp only [Option.some.injEq] at hschema
    subst hschema
    by_cases hp : anyDriver = "postgres"
    · simp [hp]
    · by_cases hm : anyDriver = "mysql"
      · simp [hm]
      · simp [hp, hm]

/-- Witness for C11: the table `users` of `shop` introspected over MySQL; the built schema has
its `Mysql` payload populated with the primary key `id` and the other two payloads absent. -/
theorem generateTableYAML_payload_witness :
    ("mysql" = "postgres" ∨ "mysql" = "mysql") ∧
    ∃ spec schema payload,
      generate.generatedTableSpec (fun fk => fk) (fun ix => ix) "mysql" "shop" "users"
        { Name := "PRIMARY", Columns := ["id"], IsPrimary := true } [] []
        [{ Name := "id", DataType := "int (11)", ColumnDefault := none,
           Constraints := some ⟨some true⟩, IsArray := false }] = .ok spec ∧
      spec.Schema = some schema ∧
      schema.Mysql = some payload ∧ schema.Postgres = none ∧ schema.CockroachDB = none ∧
      payload.PrimaryKey = ["id"] := by
  refine ⟨by decide, ?_⟩
  obtain ⟨⟨spec, schema, payload, hspec, _, hschema, hwhich, hpk, _⟩, _⟩ :=
    generateTableYAML_payload (fun fk => fk) (fun ix => ix) (fun _ => .ok "spec: ...")
      "mysql" "shop" "users" { Name := "PRIMARY", Columns := ["id"], IsPrimary := true } [] []
      [{ Name := "id", DataType := "int (11)", ColumnDefault := none,
         Constraints := some ⟨some true⟩, IsArray := false }] (by decide)
  rcases hwhich with ⟨hne, _⟩ | ⟨_, h1, h2, h3⟩
  · exact absurd hne (by decide)
  · exact ⟨spec, schema, payload, hspec, hschema, h1, h2, h3, hpk⟩

end SchemaHero
